import Mathlib

/-!
Verification of the lifecycle/aggregation core of the publisherauthority
backend (a guest-post marketplace).  The TypeScript services are shallowly
embedded as pure Lean functions over an explicit document store:

* account tier calculator   — src/src/utils/upload.ts (the accountLevel
  utility, canonical threshold table; confirmed by API_DOCUMENTATION.md)
* order lifecycle service   — the OrdersService revision wired to
  orders.controller.ts (the one providing approveOrderTopic, found at
  src/src/modules/users/users.service.ts lines 103-524)
* website service           — src/src/modules/websites/websites.service.ts
* payments service          — the PaymentsService file (src/unnamed/part_011)

JavaScript numbers that hold money or counters are modelled as Int
(mongoose $inc can drive a counter negative); Date values are modelled as
Nat milliseconds where only ordering matters, and as a civil calendar date
(year / 0-based month / 1-based day, exactly the JS Date accessors) for the
payment-date computation.  Thrown AppError values become the error side of
Except.  Fire-and-forget e-mail / notification calls have no effect on the
persistent state and are omitted, as are log statements.
-/

namespace PublisherAuthority

/-- Milliseconds since the Unix epoch (Date.now()). -/
abbrev Time := Nat

/-- An AppError carries a message and an HTTP status code
(src/src/utils/AppError.ts). -/
structure AppError where
  message : String
  statusCode : Nat
deriving DecidableEq, Repr

/-- Publisher account levels (accountLevel field of the User model). -/
inductive AccountLevel where
  | silver
  | gold
  | premium
deriving DecidableEq, Repr

/-- Threshold table LEVEL_REQUIREMENTS of utils/accountLevel.ts: minimum
completed orders per level.  This is the canonical greater-or-equal table
(spec section 4.3; also documented in src/API_DOCUMENTATION.md lines
684-686). -/
def levelReqOrders : AccountLevel → Int
  | .silver => 0
  | .gold => 50
  | .premium => 150

/-- Threshold table LEVEL_REQUIREMENTS of utils/accountLevel.ts: minimum
active websites per level. -/
def levelReqWebsites : AccountLevel → Int
  | .silver => 0
  | .gold => 30
  | .premium => 100

/-- calculateAccountLevel (utils/accountLevel.ts): premium if both premium
minima are met, else gold if both gold minima are met, else silver.
Counters are JS numbers, so the arguments are Int. -/
def calculateAccountLevel (completedOrders activeWebsites : Int) : AccountLevel :=
  if levelReqOrders .premium ≤ completedOrders ∧
      levelReqWebsites .premium ≤ activeWebsites then
    .premium
  else if levelReqOrders .gold ≤ completedOrders ∧
      levelReqWebsites .gold ≤ activeWebsites then
    .gold
  else
    .silver

/-- Rank of a level in the order silver < gold < premium. -/
def levelRank : AccountLevel → Nat
  | .silver => 0
  | .gold => 1
  | .premium => 2

/-! ## Entity documents and the document store -/

/-- A User document, restricted to the publisher counter fields the
lifecycle engine mutates (auth.model.ts). -/
structure UserDoc where
  id : Nat
  totalEarnings : Int
  completedOrders : Int
  activeWebsites : Int
  accountLevel : AccountLevel
deriving DecidableEq, Repr

/-- Website status values (websites.model.ts). -/
inductive WebsiteStatus where
  | pending
  | counterOffer
  | active
  | rejected
  | deleted
deriving DecidableEq, Repr

/-- A Website document, restricted to the fields used by the embedded
operations (websites.model.ts). -/
structure WebsiteDoc where
  id : Nat
  userId : Nat
  price : Int
  status : WebsiteStatus
  rejectedReason : Option String
  approvedAt : Option Time
deriving DecidableEq, Repr

/-- Order status values (orders.model.ts). -/
inductive OrderStatus where
  | pending
  | readyToPost
  | verifying
  | completed
  | revisionRequested
  | cancelled
deriving DecidableEq, Repr

/-- The generated human-readable order identifier ORD-(millis)-(seq).
The string rendering is injective on the pair, so the pair itself is
kept. -/
structure OrderId where
  millis : Time
  seq : Nat
deriving DecidableEq, Repr

/-- An Order document (orders.model.ts). -/
structure OrderDoc where
  id : Nat
  orderId : OrderId
  publisherId : Nat
  websiteId : Nat
  earnings : Int
  deadline : Time
  status : OrderStatus
  submittedUrl : Option String
  submittedAt : Option Time
  revisionNotes : Option String
  verificationNotes : Option String
  completedAt : Option Time
deriving DecidableEq, Repr

/-- Payment/Invoice status values (payments.model.ts). -/
inductive PaymentStatus where
  | pending
  | processing
  | paid
  | failed
deriving DecidableEq, Repr

/-- A civil calendar date in the JS Date convention: getFullYear,
getMonth (0 = January .. 11 = December) and getDate (1-based day of
month). -/
structure CalDate where
  year : Nat
  month : Nat
  day : Nat
deriving DecidableEq, Repr

/-- A Payment/Invoice document (payments.model.ts). -/
structure PaymentDoc where
  id : Nat
  userId : Nat
  orderIds : List Nat
  amount : Int
  status : PaymentStatus
  invoiceDate : Option CalDate
  dueDate : Option CalDate
  paymentDate : Option CalDate
deriving DecidableEq, Repr

/-- The document store: one collection per entity plus a fresh-id source
standing for MongoDB object-id generation. -/
structure Store where
  users : List UserDoc
  websites : List WebsiteDoc
  orders : List OrderDoc
  payments : List PaymentDoc
  nextId : Nat
deriving DecidableEq, Repr

/-- Model.findById: first document with the given id. -/
def findById {α : Type} (idOf : α → Nat) (l : List α) (i : Nat) : Option α :=
  l.find? fun x => idOf x == i

/-- Model.findByIdAndUpdate and document save: rewrite the document with
the given id in place (a silent no-op when the id resolves to nothing,
exactly as findByIdAndUpdate). -/
def updateById {α : Type} (idOf : α → Nat) (l : List α) (i : Nat)
    (f : α → α) : List α :=
  l.map fun x => if idOf x == i then f x else x

def findUser (st : Store) (i : Nat) : Option UserDoc :=
  findById (·.id) st.users i

def findWebsite (st : Store) (i : Nat) : Option WebsiteDoc :=
  findById (·.id) st.websites i

def findOrder (st : Store) (i : Nat) : Option OrderDoc :=
  findById (·.id) st.orders i

def findPayment (st : Store) (i : Nat) : Option PaymentDoc :=
  findById (·.id) st.payments i

/-- Order.findOne with filter on _id and publisherId. -/
def findOrderOwned (st : Store) (i publisherId : Nat) : Option OrderDoc :=
  st.orders.find? fun o => o.id == i && o.publisherId == publisherId

/-- Website.findOne with filter on _id and userId. -/
def findWebsiteOwned (st : Store) (i userId : Nat) : Option WebsiteDoc :=
  st.websites.find? fun w => w.id == i && w.userId == userId

/-- User.findByIdAndUpdate. -/
def updateUserById (st : Store) (i : Nat) (f : UserDoc → UserDoc) : Store :=
  { st with users := updateById (·.id) st.users i f }

/-- order.save(): persist the mutated document. -/
def saveOrder (st : Store) (o : OrderDoc) : Store :=
  { st with orders := updateById (·.id) st.orders o.id fun _ => o }

/-- website.save(). -/
def saveWebsite (st : Store) (w : WebsiteDoc) : Store :=
  { st with websites := updateById (·.id) st.websites w.id fun _ => w }

/-- payment.save(). -/
def savePayment (st : Store) (p : PaymentDoc) : Store :=
  { st with payments := updateById (·.id) st.payments p.id fun _ => p }

/-- JS truthiness of an optional string argument (undefined and the empty
string are falsy). -/
def strTruthy : Option String → Bool
  | none => false
  | some s => s != ""

/-- autoUpdateAccountLevel (utils/accountLevel.ts): look the user up,
recompute the level from the current counters, persist it only when it
changed, and swallow a missing user. -/
def autoUpdateAccountLevel (st : Store) (userId : Nat) : Store :=
  match findUser st userId with
  | none => st
  | some u =>
    let newLevel := calculateAccountLevel u.completedOrders u.activeWebsites
    if u.accountLevel ≠ newLevel then
      updateUserById st userId fun v => { v with accountLevel := newLevel }
    else
      st

/-! ## Orders service

Embeds the OrdersService revision that orders.controller.ts is wired to
(the class at src/src/modules/users/users.service.ts lines 103-524, the
only revision providing approveOrderTopic). -/

/-- Input payload of createOrder; Option marks fields the code checks for
presence, and deadline none also stands for an unparsable deadline
string. -/
structure CreateOrderData where
  publisherId : Option Nat
  websiteId : Option Nat
  deadline : Option Time
  earnings : Int
deriving DecidableEq, Repr

/-- OrdersService.createOrder: validates presence of publisherId and
websiteId, resolves the publisher, requires the website to exist and be
active, requires the website to belong to the publisher, generates
ORD-(Date.now())-(countDocuments+1), validates the deadline, and creates
the order with initial status pending. -/
def createOrder (st : Store) (d : CreateOrderData) (now : Time) :
    Except AppError (Store × OrderDoc) :=
  match d.publisherId with
  | none => .error ⟨"Publisher ID is required", 400⟩
  | some pid =>
    match d.websiteId with
    | none => .error ⟨"Website ID is required", 400⟩
    | some wid =>
      match findUser st pid with
      | none => .error ⟨"Publisher not found", 404⟩
      | some publisher =>
        match findWebsite st wid with
        | none => .error ⟨"Website not found or not active", 404⟩
        | some website =>
          if website.status ≠ .active then
            .error ⟨"Website not found or not active", 404⟩
          else if website.userId ≠ publisher.id then
            .error ⟨"Website does not belong to the specified publisher", 400⟩
          else
            let count := st.orders.length
            let generatedOrderId : OrderId := ⟨now, count + 1⟩
            match d.deadline with
            | none => .error ⟨"Deadline is required", 400⟩
            | some deadline =>
              let order : OrderDoc :=
                { id := st.nextId
                  orderId := generatedOrderId
                  publisherId := pid
                  websiteId := wid
                  earnings := d.earnings
                  deadline := deadline
                  status := .pending
                  submittedUrl := none
                  submittedAt := none
                  revisionNotes := none
                  verificationNotes := none
                  completedAt := none }
              .ok ({ st with orders := st.orders ++ [order],
                             nextId := st.nextId + 1 }, order)

/-- OrdersService.approveOrderTopic: pending to ready-to-post, owned
orders only. -/
def approveOrderTopic (st : Store) (orderId publisherId : Nat) :
    Except AppError (Store × OrderDoc) :=
  match findOrderOwned st orderId publisherId with
  | none => .error ⟨"Order not found", 404⟩
  | some order =>
    if order.status ≠ .pending then
      .error ⟨"Order cannot be approved", 400⟩
    else
      let order := { order with status := .readyToPost }
      .ok (saveOrder st order, order)

/-- OrdersService.submitPostUrl: allowed from ready-to-post or
revision-requested; records the submitted url and time, moves to
verifying, and clears revisionNotes on a resubmission after revision. -/
def submitPostUrl (st : Store) (orderId publisherId : Nat)
    (submittedUrl : String) (now : Time) :
    Except AppError (Store × OrderDoc) :=
  match findOrderOwned st orderId publisherId with
  | none => .error ⟨"Order not found", 404⟩
  | some order =>
    let isRevisionResubmission := order.status = .revisionRequested
    if order.status ≠ .readyToPost ∧ ¬isRevisionResubmission then
      .error ⟨"Order is not ready for submission", 400⟩
    else
      let order :=
        { order with
          submittedUrl := some submittedUrl
          submittedAt := some now
          status := .verifying
          revisionNotes :=
            if isRevisionResubmission then none else order.revisionNotes }
      .ok (saveOrder st order, order)

/-- OrdersService.updateOrderStatus: overwrites the status, and when the
new status is completed sets completedAt, applies the $inc of earnings and
completedOrders to the publisher and recomputes the account level; stores
notes as revisionNotes on revision-requested and as verificationNotes
otherwise.  Note the source applies the completed-branch side effects with
no check of the previous status. -/
def updateOrderStatus (st : Store) (orderId : Nat) (status : OrderStatus)
    (notes : Option String) (now : Time) :
    Except AppError (Store × OrderDoc) :=
  match findOrder st orderId with
  | none => .error ⟨"Order not found", 404⟩
  | some order0 =>
    let order1 := { order0 with status := status }
    let stepCompleted : OrderDoc × Store :=
      if status = .completed then
        let o := { order1 with completedAt := some now }
        let st1 := updateUserById st o.publisherId fun u =>
          { u with
            totalEarnings := u.totalEarnings + o.earnings
            completedOrders := u.completedOrders + 1 }
        (o, autoUpdateAccountLevel st1 o.publisherId)
      else
        (order1, st)
    let order2 := stepCompleted.1
    let st2 := stepCompleted.2
    let order3 :=
      if status = .revisionRequested ∧ strTruthy notes then
        { order2 with revisionNotes := notes }
      else
        order2
    let order4 :=
      if strTruthy notes ∧ status ≠ .revisionRequested then
        { order3 with verificationNotes := notes }
      else
        order3
    .ok (saveOrder st2 order4, order4)

/-! ## Websites service

Embeds src/src/modules/websites/websites.service.ts (the copy in
src/unnamed/part_025 is identical in the parts embedded here up to the
e-mail side effects). -/

/-- User.findByIdAndUpdate with a $inc of activeWebsites by delta. -/
def incActiveWebsites (st : Store) (userId : Nat) (delta : Int) : Store :=
  updateUserById st userId fun u =>
    { u with activeWebsites := u.activeWebsites + delta }

/-- WebsitesService.updateWebsiteStatus.  Faithful to the source order of
operations: the document status is overwritten first, and the wasActive
flag is read from the document afterwards, so it compares the new status
(not the previous one) against active. -/
def updateWebsiteStatus (st : Store) (websiteId : Nat)
    (status : WebsiteStatus) (rejectionReason : Option String) (now : Time) :
    Except AppError (Store × WebsiteDoc) :=
  match findWebsite st websiteId with
  | none => .error ⟨"Website not found", 404⟩
  | some website0 =>
    let website1 := { website0 with status := status }
    let website2 :=
      if status = .rejected ∧ strTruthy rejectionReason then
        { website1 with rejectedReason := rejectionReason }
      else
        website1
    let wasActive := website2.status = .active
    if status = .active then
      let website3 := { website2 with approvedAt := some now }
      let st1 :=
        if ¬wasActive then
          autoUpdateAccountLevel (incActiveWebsites st website3.userId 1)
            website3.userId
        else
          st
      .ok (saveWebsite st1 website3, website3)
    else if status = .rejected then
      .ok (saveWebsite st website2, website2)
    else
      let st1 :=
        if wasActive ∧ status ≠ .active then
          autoUpdateAccountLevel (incActiveWebsites st website2.userId (-1))
            website2.userId
        else
          st
      .ok (saveWebsite st1 website2, website2)

/-- WebsitesService.deleteWebsite: owned websites only, disallowed while
active; soft-deletes the document and then unconditionally applies a $inc
of activeWebsites by -1 to the owner. -/
def deleteWebsite (st : Store) (websiteId userId : Nat) :
    Except AppError Store :=
  match findWebsiteOwned st websiteId userId with
  | none => .error ⟨"Website not found", 404⟩
  | some website =>
    if website.status = .active then
      .error ⟨"Cannot delete active website", 400⟩
    else
      let website := { website with status := .deleted }
      let st1 := saveWebsite st website
      .ok (incActiveWebsites st1 userId (-1))

/-! ## Civil calendar arithmetic

A pure model of the JS Date arithmetic the payment scheduler relies on,
for dates from 1970 onwards.  Weekday numbering follows JS getDay:
0 = Sunday .. 6 = Saturday; 1970-01-01 was a Thursday (4). -/

/-- Gregorian leap-year rule. -/
def isLeapYear (y : Nat) : Bool :=
  (y % 4 == 0 && y % 100 != 0) || (y % 400 == 0)

/-- Number of days of month m (0-based) of year y. -/
def daysInMonth (y m : Nat) : Nat :=
  if m = 1 then (if isLeapYear y then 29 else 28)
  else if m = 3 ∨ m = 5 ∨ m = 8 ∨ m = 10 then 30
  else 31

/-- Number of days of year y. -/
def daysInYear (y : Nat) : Nat :=
  if isLeapYear y then 366 else 365

/-- Days of year y that precede month m (0-based). -/
def daysBeforeMonth (y : Nat) : Nat → Nat
  | 0 => 0
  | m + 1 => daysBeforeMonth y m + daysInMonth y m

/-- Total days of the k years 1970 .. 1969+k. -/
def daysFromEpochYears : Nat → Nat
  | 0 => 0
  | k + 1 => daysFromEpochYears k + daysInYear (1970 + k)

/-- Days between 1970-01-01 and the first day of year y (0 for years up to
1970). -/
def daysBeforeYear (y : Nat) : Nat :=
  daysFromEpochYears (y - 1970)

/-- Days between 1970-01-01 and the given date. -/
def toDays (d : CalDate) : Nat :=
  daysBeforeYear d.year + daysBeforeMonth d.year d.month + (d.day - 1)

/-- JS Date.prototype.getDay: 0 = Sunday .. 6 = Saturday. -/
def dayOfWeek (d : CalDate) : Nat :=
  (toDays d + 4) % 7

/-- A calendar date the model covers: from 1970 on, month index at most 11,
day within the month. -/
def ValidDate (d : CalDate) : Prop :=
  1970 ≤ d.year ∧ d.month ≤ 11 ∧ 1 ≤ d.day ∧ d.day ≤ daysInMonth d.year d.month

instance (d : CalDate) : Decidable (ValidDate d) := by
  unfold ValidDate; infer_instance

/-- Strict lexicographic (chronological) order on calendar dates. -/
def dateLt (a b : CalDate) : Prop :=
  a.year < b.year ∨
    (a.year = b.year ∧
      (a.month < b.month ∨ (a.month = b.month ∧ a.day < b.day)))

/-! ## Payments service (PaymentsService, src/unnamed/part_011) -/

/-- The first half of PaymentsService.getNextPaymentDate: the upcoming 1st
or 15th.  The day-below-1 branch is in the source and unreachable for a
real date; new Date(y, 12, 1) normalizes to January of the next year, which
the month-11 case spells out. -/
def nextFirstOrFifteenth (now : CalDate) : CalDate :=
  if now.day < 1 then ⟨now.year, now.month, 1⟩
  else if now.day < 15 then ⟨now.year, now.month, 15⟩
  else if now.month = 11 then ⟨now.year + 1, 0, 1⟩
  else ⟨now.year, now.month + 1, 1⟩

/-- The second half of PaymentsService.getNextPaymentDate: setDate(+1) on a
Sunday and setDate(+2) on a Saturday; adding to the day field is exact here
because the date being adjusted is a 1st or a 15th, so no month rollover
occurs. -/
def adjustWeekend (d : CalDate) : CalDate :=
  let dow := dayOfWeek d
  if dow = 0 then { d with day := d.day + 1 }
  else if dow = 6 then { d with day := d.day + 2 }
  else d

/-- PaymentsService.getNextPaymentDate, with new Date() made an explicit
argument. -/
def getNextPaymentDate (now : CalDate) : CalDate :=
  adjustWeekend (nextFirstOrFifteenth now)

/-- PaymentsService.generateInvoice: loads the orders matching the given
ids that belong to the user and are completed, demands that count to equal
the number of requested ids, sums their earnings, requires the user to
exist, and creates a pending payment due at the next payment date.  The
source performs no check against previously generated invoices. -/
def generateInvoice (st : Store) (userId : Nat) (orderIds : List Nat)
    (today : CalDate) : Except AppError (Store × PaymentDoc) :=
  let orders := st.orders.filter fun o =>
    orderIds.contains o.id && o.publisherId == userId && o.status == .completed
  if orders.length ≠ orderIds.length then
    .error ⟨"Some orders are not completed or not found", 400⟩
  else
    let totalAmount := (orders.map (·.earnings)).sum
    match findUser st userId with
    | none => .error ⟨"User not found", 404⟩
    | some _ =>
      let payment : PaymentDoc :=
        { id := st.nextId
          userId := userId
          orderIds := orderIds
          amount := totalAmount
          status := .pending
          invoiceDate := some today
          dueDate := some (getNextPaymentDate today)
          paymentDate := none }
      .ok ({ st with payments := st.payments ++ [payment],
                     nextId := st.nextId + 1 }, payment)

/-- PaymentsService.processPayment: pending only, moves to processing. -/
def processPayment (st : Store) (paymentId : Nat) :
    Except AppError (Store × PaymentDoc) :=
  match findPayment st paymentId with
  | none => .error ⟨"Payment not found", 404⟩
  | some payment =>
    if payment.status ≠ .pending then
      .error ⟨"Payment is not in pending status", 400⟩
    else
      let payment := { payment with status := .processing }
      .ok (savePayment st payment, payment)

/-- PaymentsService.markAsPaid: no precondition on the current status;
overwrites status with paid and paymentDate with the current date. -/
def markAsPaid (st : Store) (paymentId : Nat) (today : CalDate) :
    Except AppError (Store × PaymentDoc) :=
  match findPayment st paymentId with
  | none => .error ⟨"Payment not found", 404⟩
  | some payment =>
    let payment := { payment with status := .paid, paymentDate := some today }
    .ok (savePayment st payment, payment)

/-- Whether an Except result is a success. -/
def isOk {ε α : Type} : Except ε α → Bool
  | .ok _ => true
  | .error _ => false

/-! ## Concrete sample data (used by witnesses) -/

/-- A publisher who has already been credited once: one completed order
worth 25. -/
def pubUser : UserDoc :=
  { id := 7, totalEarnings := 25, completedOrders := 1,
    activeWebsites := 0, accountLevel := .silver }

/-- An order that is already completed (and already credited). -/
def doneOrder : OrderDoc :=
  { id := 1, orderId := ⟨1000, 1⟩, publisherId := 7, websiteId := 3,
    earnings := 25, deadline := 9999, status := .completed,
    submittedUrl := some "https://blog.example.com/post-1",
    submittedAt := some 500, revisionNotes := none,
    verificationNotes := none, completedAt := some 600 }

/-- An order awaiting URL submission. -/
def readyOrder : OrderDoc :=
  { doneOrder with
    id := 2,
    orderId := ⟨1000, 2⟩,
    status := .readyToPost,
    submittedUrl := none,
    submittedAt := none,
    completedAt := none }

/-- A website still pending review (never active, never counted). -/
def pendingSite : WebsiteDoc :=
  { id := 1, userId := 7, price := 50, status := .pending,
    rejectedReason := none, approvedAt := none }

/-- An active website of the same publisher. -/
def activeSite : WebsiteDoc :=
  { id := 3, userId := 7, price := 80, status := .active,
    rejectedReason := none, approvedAt := some 100 }

/-- An invoice that is currently processing (not pending). -/
def processingInvoice : PaymentDoc :=
  { id := 9, userId := 7, orderIds := [1], amount := 25,
    status := .processing, invoiceDate := some ⟨2026, 9, 1⟩,
    dueDate := some ⟨2026, 9, 15⟩, paymentDate := none }

/-- The sample store the witnesses run against. -/
def baseStore : Store :=
  { users := [pubUser], websites := [pendingSite, activeSite],
    orders := [doneOrder, readyOrder], payments := [processingInvoice],
    nextId := 50 }

/-- A sample current date, 2026-10-11 (a Sunday). -/
def d0 : CalDate := ⟨2026, 9, 11⟩

/-! ## Helper lemmas about the store primitives -/

/-- Updating the document with id i and then looking id i up yields the
updated document, whenever the update cannot change the id of a matching
document. -/
theorem findById_updateById {α : Type} (idOf : α → Nat) (f : α → α)
    (i : Nat) (hf : ∀ x, idOf x = i → idOf (f x) = i) (l : List α) :
    findById idOf (updateById idOf l i f) i = (findById idOf l i).map f := by
  induction l with
  | nil => rfl
  | cons x xs ih =>
    by_cases h : idOf x = i
    · have hfx : (idOf (f x) == i) = true := by simpa using hf x h
      simp [findById, updateById, h, hfx]
    · have hx : (idOf x == i) = false := by simpa using h
      simp only [findById, updateById, List.map_cons] at *
      rw [if_neg (by simpa using h)]
      rw [List.find?_cons_of_neg _ (by simp [hx]),
        List.find?_cons_of_neg _ (by simp [hx])]
      exact ih

/-- C4: the tier function returns premium exactly when completedOrders ≥ 150
and activeWebsites ≥ 100; otherwise gold exactly when completedOrders ≥ 50
and activeWebsites ≥ 30; otherwise silver, for all non-negative integer
inputs. -/
theorem calculateAccountLevel_threshold_table
    (co aw : Int) (hco : 0 ≤ co) (haw : 0 ≤ aw) :
    (calculateAccountLevel co aw = .premium ↔ (150 ≤ co ∧ 100 ≤ aw)) ∧
    (calculateAccountLevel co aw = .gold ↔
      (¬(150 ≤ co ∧ 100 ≤ aw) ∧ (50 ≤ co ∧ 30 ≤ aw))) ∧
    (calculateAccountLevel co aw = .silver ↔
      (¬(150 ≤ co ∧ 100 ≤ aw) ∧ ¬(50 ≤ co ∧ 30 ≤ aw))) := by
  unfold calculateAccountLevel levelReqOrders levelReqWebsites
  refine ⟨?_, ?_, ?_⟩ <;> split_ifs with h1 h2 <;>
    simp_all <;> omega

/-- Witness for C4 at a concrete input: 150 completed orders and 100 active
websites is classified premium. -/
theorem calculateAccountLevel_threshold_table_witness :
    calculateAccountLevel 150 100 = .premium :=
  (calculateAccountLevel_threshold_table 150 100 (by decide) (by decide)).1.mpr
    (by decide)

/-- C5: the tier function is monotonic non-decreasing in each argument (the
joint statement, which contains each single-argument statement by fixing the
other argument). -/
theorem calculateAccountLevel_monotone
    (co co' aw aw' : Int) (hco : co ≤ co') (haw : aw ≤ aw') :
    levelRank (calculateAccountLevel co aw) ≤
      levelRank (calculateAccountLevel co' aw') := by
  unfold calculateAccountLevel levelReqOrders levelReqWebsites levelRank
  split_ifs <;> simp_all <;> omega

/-- Witness for C5 at a concrete input: going from (49, 29) to (50, 30) does
not lower the tier. -/
theorem calculateAccountLevel_monotone_witness :
    levelRank (calculateAccountLevel 49 29) ≤
      levelRank (calculateAccountLevel 50 30) :=
  calculateAccountLevel_monotone 49 50 29 30 (by decide) (by decide)

/-- Looking a user up after updateUserById, specialised form of the store
lemma. -/
theorem findUser_updateUserById (st : Store) (i : Nat)
    (f : UserDoc → UserDoc) (hf : ∀ x, (f x).id = x.id) :
    findUser (updateUserById st i f) i = (findUser st i).map f := by
  unfold findUser updateUserById
  exact findById_updateById (·.id) f i (fun x hx => by simpa [hf x] using hx)
    st.users

/-- saveOrder leaves the users collection untouched. -/
theorem findUser_saveOrder (st : Store) (o : OrderDoc) (i : Nat) :
    findUser (saveOrder st o) i = findUser st i := rfl

/-- saveWebsite leaves the users collection untouched. -/
theorem findUser_saveWebsite (st : Store) (w : WebsiteDoc) (i : Nat) :
    findUser (saveWebsite st w) i = findUser st i := rfl

/-- autoUpdateAccountLevel changes at most the accountLevel field of the
user it targets: totalEarnings and completedOrders are untouched. -/
theorem findUser_autoUpdateAccountLevel (st : Store) (i : Nat) :
    (findUser (autoUpdateAccountLevel st i) i).map
        (fun u1 => (u1.totalEarnings, u1.completedOrders)) =
      (findUser st i).map
        (fun u1 => (u1.totalEarnings, u1.completedOrders)) := by
  cases hu : findUser st i with
  | none => simp [autoUpdateAccountLevel, hu]
  | some u =>
    simp only [autoUpdateAccountLevel, hu]
    split
    · rw [findUser_updateUserById st i
        (fun v =>
          { v with
            accountLevel :=
              calculateAccountLevel u.completedOrders u.activeWebsites })
        (fun x => rfl), hu]
      rfl
    · rw [hu]

/-- C1: the source of updateOrderStatus applies the earnings credit on
every invocation with status completed, with no check that the order was
not already completed: invoking it on an already-completed order adds the
order's earnings to the publisher's totalEarnings and adds 1 to
completedOrders a further time.  This refutes the claim that the credit is
applied at most once per order, and contradicts the spec's stated
exactly-once guarantee. -/
theorem updateOrderStatus_completed_credits_again
    (st : Store) (oid : Nat) (notes : Option String) (now : Time)
    (o : OrderDoc) (u : UserDoc)
    (ho : findOrder st oid = some o)
    (hdone : o.status = .completed)
    (hu : findUser st o.publisherId = some u) :
    ((updateOrderStatus st oid .completed notes now).toOption.bind
        fun q => findUser q.1 o.publisherId).map
        (fun u1 => (u1.totalEarnings, u1.completedOrders))
      = some (u.totalEarnings + o.earnings, u.completedOrders + 1) := by
  unfold updateOrderStatus
  rw [ho]
  simp only [reduceIte, Except.toOption, Option.some_bind]
  rw [findUser_saveOrder, findUser_autoUpdateAccountLevel,
    findUser_updateUserById, hu]
  · rfl
  · exact fun x => rfl

/-- Witness for C1 at the sample store: order 1 is already completed with
earnings 25 and its publisher already has totalEarnings 25 and
completedOrders 1; re-invoking updateOrderStatus with completed leaves the
publisher at totalEarnings 50 and completedOrders 2 — a second credit. -/
theorem updateOrderStatus_completed_credits_again_witness :
    ((updateOrderStatus baseStore 1 .completed none 700).toOption.bind
        fun q => findUser q.1 7).map
        (fun u1 => (u1.totalEarnings, u1.completedOrders))
      = some (50, 2) := by
  have h := updateOrderStatus_completed_credits_again baseStore 1 none 700
    doneOrder pubUser rfl rfl rfl
  simpa using h

/-- C3: in the source of updateWebsiteStatus the wasActive flag is computed
after the status field has already been overwritten, so the
into-active branch never increments the owner's activeWebsites counter and
the out-of-active branch never decrements it: the users collection is
returned untouched by every successful call, whatever the transition.
This refutes the claimed increment/decrement behaviour (and the incActive
code paths contradict the source's own comments). -/
theorem updateWebsiteStatus_leaves_counters
    (st : Store) (wid : Nat) (status : WebsiteStatus)
    (reason : Option String) (now : Time)
    (q : Store × WebsiteDoc)
    (h : updateWebsiteStatus st wid status reason now = .ok q) :
    q.1.users = st.users := by
  unfold updateWebsiteStatus at h
  cases hw : findWebsite st wid with
  | none => rw [hw] at h; cases h
  | some w0 =>
    rw [hw] at h
    simp only [] at h
    split_ifs at h with h1 h2 h3 h4 h5 h6 h7 <;>
      first
        | (injection h with h2; subst h2; rfl)
        | simp_all [saveWebsite]

/-- Witness for C3 at the sample store: approving the pending website 1
into active leaves the users collection (hence the owner's
activeWebsiteCount of 0) exactly as it was. -/
theorem updateWebsiteStatus_leaves_counters_witness :
    ((updateWebsiteStatus baseStore 1 .active none 700).toOption.map
        fun q => q.1.users) = some baseStore.users := by
  cases hE : updateWebsiteStatus baseStore 1 .active none 700 with
  | error e =>
      have hok : isOk (updateWebsiteStatus baseStore 1 .active none 700)
          = true := by decide
      rw [hE] at hok
      simp [isOk] at hok
  | ok q =>
      have hmain :=
        updateWebsiteStatus_leaves_counters baseStore 1 .active none 700 q hE
      simp [Except.toOption, hmain]

/-- incActiveWebsites leaves the websites collection untouched. -/
theorem findWebsite_incActiveWebsites (st : Store) (uid : Nat) (d : Int)
    (j : Nat) : findWebsite (incActiveWebsites st uid d) j = findWebsite st j :=
  rfl

/-- Saving a website document and looking its id up returns the saved
document, provided some document with that id exists. -/
theorem findWebsite_saveWebsite_found (st : Store) (v : WebsiteDoc)
    (hx : ∃ x, findWebsite st v.id = some x) :
    findWebsite (saveWebsite st v) v.id = some v := by
  obtain ⟨x, hx⟩ := hx
  have key := findById_updateById (α := WebsiteDoc) (·.id) (fun _ => v) v.id
    (fun y _ => rfl) st.websites
  unfold findWebsite at hx
  exact key.trans (by rw [hx]; rfl)

/-- C8: deleteWebsite rejects an active website unchanged, and on every
non-active website sets the status to deleted — but then applies the
decrement of the owner's activeWebsites counter unconditionally, also when
the website was never active and hence never counted.  The second
conjunct's counter equation refutes the claimed leaves-the-counter-alone
behaviour for never-active websites. -/
theorem deleteWebsite_spec
    (st : Store) (wid uid : Nat) (w : WebsiteDoc)
    (hw : findWebsiteOwned st wid uid = some w) :
    (w.status = .active →
      deleteWebsite st wid uid = .error ⟨"Cannot delete active website", 400⟩) ∧
    (w.status ≠ .active →
      ∀ st1, deleteWebsite st wid uid = .ok st1 →
        (findWebsite st1 wid).map (fun x => x.status) = some .deleted ∧
        (findUser st1 uid).map (fun x => x.activeWebsites) =
          (findUser st uid).map (fun x => x.activeWebsites - 1)) := by
  have hw0 := hw
  unfold findWebsiteOwned at hw0
  have hpred := List.find?_some hw0
  have hmem := List.mem_of_find?_eq_some hw0
  simp only [Bool.and_eq_true, beq_iff_eq] at hpred
  obtain ⟨hid, huid⟩ := hpred
  subst hid
  subst huid
  constructor
  · intro hact
    unfold deleteWebsite
    rw [hw]
    simp only []
    rw [if_pos hact]
  · intro hne st1 hok
    unfold deleteWebsite at hok
    rw [hw] at hok
    simp only [] at hok
    rw [if_neg hne] at hok
    injection hok with hok
    subst hok
    refine ⟨?_, ?_⟩
    · rw [findWebsite_incActiveWebsites]
      have hsome : ∃ x, findWebsite st w.id = some x := by
        have hs : (st.websites.find? fun x => x.id == w.id).isSome := by
          rw [List.find?_isSome]
          exact ⟨w, hmem, by simp⟩
        exact Option.isSome_iff_exists.mp hs
      have hlem : findWebsite
            (saveWebsite st ({ w with status := .deleted } : WebsiteDoc)) w.id
          = some ({ w with status := .deleted } : WebsiteDoc) :=
        findWebsite_saveWebsite_found st ({ w with status := .deleted }) hsome
      rw [hlem]
      rfl
    · unfold incActiveWebsites
      rw [findUser_updateUserById _ _
          (fun u => { u with activeWebsites := u.activeWebsites + -1 })
          (fun x => rfl),
        findUser_saveWebsite]
      cases findUser st w.userId with
      | none => rfl
      | some u =>
        simp only [Option.map_some', Option.some.injEq]
        omega

/-- Witness for C8 at the sample store: website 1 is pending (never active,
owner's counter 0); deleting it succeeds and drives the owner's
activeWebsites counter to -1 — the unconditional decrement applied to a
website that was never counted. -/
theorem deleteWebsite_spec_witness :
    ((deleteWebsite baseStore 1 7).toOption.bind fun s => findUser s 7).map
        (fun u => u.activeWebsites) = some (-1) := by
  cases hE : deleteWebsite baseStore 1 7 with
  | error e =>
      have hok : isOk (deleteWebsite baseStore 1 7) = true := by decide
      rw [hE] at hok
      simp [isOk] at hok
  | ok st1 =>
      have hmain := (deleteWebsite_spec baseStore 1 7 pendingSite rfl).2
        (by decide) st1 hE
      simp only [Except.toOption, Option.some_bind]
      rw [hmain.2]
      decide

/-- C6: for an order that resolves for the acting publisher, submitPostUrl
succeeds exactly from ready-to-post or revision-requested; on success it
records the url and submission time, moves the order to verifying, clears
revisionNotes when resubmitting after a revision request (and keeps them
otherwise), and persists exactly that order; from any other status it
returns the invalid-transition error, leaving the store untouched. -/
theorem submitPostUrl_spec
    (st : Store) (oid pid : Nat) (url : String) (now : Time)
    (o : OrderDoc) (ho : findOrderOwned st oid pid = some o) :
    (isOk (submitPostUrl st oid pid url now) = true ↔
      (o.status = .readyToPost ∨ o.status = .revisionRequested)) ∧
    (∀ q : Store × OrderDoc, submitPostUrl st oid pid url now = .ok q →
      q.2.submittedUrl = some url ∧ q.2.submittedAt = some now ∧
      q.2.status = .verifying ∧
      (o.status = .revisionRequested → q.2.revisionNotes = none) ∧
      (o.status = .readyToPost → q.2.revisionNotes = o.revisionNotes) ∧
      q.1 = saveOrder st q.2) ∧
    (o.status ≠ .readyToPost ∧ o.status ≠ .revisionRequested →
      submitPostUrl st oid pid url now =
        .error ⟨"Order is not ready for submission", 400⟩) := by
  unfold submitPostUrl
  rw [ho]
  simp only []
  by_cases hcond : (¬o.status = .readyToPost ∧ ¬o.status = .revisionRequested)
  · rw [if_pos hcond]
    refine ⟨?_, ?_, ?_⟩
    · simp [isOk]
      tauto
    · intro q hq
      cases hq
    · intro _
      rfl
  · rw [if_neg hcond]
    refine ⟨?_, ?_, ?_⟩
    · simp [isOk]
      tauto
    · intro q hq
      injection hq with hq
      subst hq
      refine ⟨rfl, rfl, rfl, ?_, ?_, rfl⟩
      · intro hrev
        simp [if_pos hrev]
      · intro hready
        have : ¬(o.status = .revisionRequested) := by
          rw [hready]
          intro hcontra
          cases hcontra
        simp [if_neg this]
    · intro hcontra
      exact absurd ⟨hcontra.1, hcontra.2⟩ hcond

/-- Witness for C6 at the sample store: order 2 of publisher 7 is
ready-to-post, so the submission succeeds. -/
theorem submitPostUrl_spec_witness :
    isOk (submitPostUrl baseStore 2 7 "https://blog.example.com/post-2" 700)
      = true :=
  (submitPostUrl_spec baseStore 2 7 "https://blog.example.com/post-2" 700
    readyOrder rfl).1.mpr (Or.inl rfl)

/-- Saving a payment document and looking its id up returns the saved
document, provided some document with that id exists. -/
theorem findPayment_savePayment_found (st : Store) (v : PaymentDoc)
    (hx : ∃ x, findPayment st v.id = some x) :
    findPayment (savePayment st v) v.id = some v := by
  obtain ⟨x, hx⟩ := hx
  have key := findById_updateById (α := PaymentDoc) (·.id) (fun _ => v) v.id
    (fun y _ => rfl) st.payments
  unfold findPayment at hx
  exact key.trans (by rw [hx]; rfl)

/-- C10: markAsPaid has no precondition on the invoice status: for every
existing invoice it succeeds, sets status paid and overwrites paymentDate
with the current date; repeating it succeeds again and replaces the
previously recorded paymentDate; processPayment by contrast is rejected
whenever the invoice is not pending. -/
theorem markAsPaid_spec
    (st : Store) (pid : Nat) (t t2 : CalDate) (p0 : PaymentDoc)
    (hp : findPayment st pid = some p0) :
    markAsPaid st pid t =
      .ok (savePayment st { p0 with status := .paid, paymentDate := some t },
           { p0 with status := .paid, paymentDate := some t }) ∧
    (p0.status ≠ .pending →
      processPayment st pid =
        .error ⟨"Payment is not in pending status", 400⟩) ∧
    ((markAsPaid
          (savePayment st { p0 with status := .paid, paymentDate := some t })
          pid t2).toOption.map
        (fun q => (q.2.status, q.2.paymentDate))) = some (.paid, some t2) := by
  have hp0 := hp
  unfold findPayment at hp0
  have hpe := List.find?_some hp0
  simp only [beq_iff_eq] at hpe
  subst hpe
  refine ⟨?_, ?_, ?_⟩
  · unfold markAsPaid
    rw [hp]
  · intro hne
    unfold processPayment
    rw [hp]
    simp only []
    rw [if_pos hne]
  · have hfound : findPayment
        (savePayment st
          ({ p0 with status := .paid, paymentDate := some t } : PaymentDoc))
        p0.id
        = some ({ p0 with status := .paid, paymentDate := some t } :
            PaymentDoc) :=
      findPayment_savePayment_found st
        ({ p0 with status := .paid, paymentDate := some t }) ⟨p0, hp⟩
    unfold markAsPaid
    rw [hfound]
    simp [Except.toOption]

/-- Witness for C10 at the sample store: invoice 9 is processing (not
pending), so processPayment rejects it while a repeated markAsPaid
overwrites the recorded payment date. -/
theorem markAsPaid_spec_witness :
    (processPayment baseStore 9 =
      .error ⟨"Payment is not in pending status", 400⟩) ∧
    ((markAsPaid
          (savePayment baseStore
            { processingInvoice with
              status := .paid, paymentDate := some ⟨2026, 9, 20⟩ })
          9 ⟨2026, 9, 21⟩).toOption.map
        (fun q => (q.2.status, q.2.paymentDate)))
      = some (.paid, some ⟨2026, 9, 21⟩) := by
  have h := markAsPaid_spec baseStore 9 ⟨2026, 9, 20⟩ ⟨2026, 9, 21⟩
    processingInvoice rfl
  exact ⟨h.2.1 (by decide), h.2.2⟩

/-- C2: generateInvoice checks only that every requested order resolves,
belongs to the user and is completed; it consults no existing invoice, so a
successful call leaves a store (orders and users untouched, the new pending
invoice appended) on which the very same call succeeds again — the second
call creates a duplicate invoice over the same order ids instead of
failing with an already-claimed validation error. -/
theorem generateInvoice_no_already_claimed_check
    (st : Store) (uid : Nat) (ids : List Nat) (today : CalDate)
    (q : Store × PaymentDoc)
    (h : generateInvoice st uid ids today = .ok q) :
    q.2.orderIds = ids ∧ q.2.status = .pending ∧
    q.1.payments = st.payments ++ [q.2] ∧
    q.1.orders = st.orders ∧ q.1.users = st.users ∧
    (∀ st2 : Store, st2.orders = st.orders → st2.users = st.users →
      isOk (generateInvoice st2 uid ids today) = true) := by
  unfold generateInvoice at h
  by_cases hlen : ((st.orders.filter fun o =>
      ids.contains o.id && o.publisherId == uid &&
        o.status == OrderStatus.completed).length ≠ ids.length)
  · rw [if_pos hlen] at h
    cases h
  · rw [if_neg hlen] at h
    cases hu : findUser st uid with
    | none => rw [hu] at h; cases h
    | some u =>
      rw [hu] at h
      simp only [] at h
      injection h with h
      subst h
      refine ⟨rfl, rfl, rfl, rfl, rfl, ?_⟩
      intro st2 ho2 hu2
      unfold generateInvoice
      rw [ho2, if_neg hlen]
      unfold findUser at hu ⊢
      rw [hu2, hu]
      simp only [isOk]

/-- Witness for C2 at the sample store: invoicing the single completed
order 1 of publisher 7 succeeds, and immediately repeating the identical
call against the resulting store succeeds again (duplicate invoice). -/
theorem generateInvoice_no_already_claimed_check_witness :
    ((generateInvoice baseStore 7 [1] d0).toOption.map
        fun q => isOk (generateInvoice q.1 7 [1] d0)) = some true := by
  cases hE : generateInvoice baseStore 7 [1] d0 with
  | error e =>
      have hok : isOk (generateInvoice baseStore 7 [1] d0) = true := by decide
      rw [hE] at hok
      simp [isOk] at hok
  | ok q =>
      have h := generateInvoice_no_already_claimed_check baseStore 7 [1] d0
        q hE
      simp only [Except.toOption, Option.map_some', Option.some.injEq]
      exact h.2.2.2.2.2 q.1 h.2.2.2.1 h.2.2.2.2.1

/-- C7: every successful createOrder starts the order in status pending
with the generated identifier ORD-(now)-(count+1), appends exactly that
order, generates an identifier distinct from every stored order's (under
the invariant that stored sequence numbers never exceed the collection
size, which holds for stores populated by createOrder itself), and implies
that the referenced website exists, is active and is owned by the given
publisher; every run violating one of those checks returns an error and
creates nothing. -/
theorem createOrder_spec
    (st : Store) (d : CreateOrderData) (now : Time)
    (q : Store × OrderDoc) (h : createOrder st d now = .ok q) :
    q.2.status = .pending ∧
    q.2.orderId = ⟨now, st.orders.length + 1⟩ ∧
    q.1.orders = st.orders ++ [q.2] ∧
    ((∀ o ∈ st.orders, o.orderId.seq ≤ st.orders.length) →
      ∀ o ∈ st.orders, o.orderId ≠ q.2.orderId) ∧
    (∃ pid publisher, d.publisherId = some pid ∧
      findUser st pid = some publisher ∧
      ∃ wid website, d.websiteId = some wid ∧
        findWebsite st wid = some website ∧
        website.status = .active ∧ website.userId = publisher.id) := by
  unfold createOrder at h
  cases hpid : d.publisherId with
  | none => rw [hpid] at h; cases h
  | some pid =>
    rw [hpid] at h
    simp only [] at h
    cases hwid : d.websiteId with
    | none => rw [hwid] at h; cases h
    | some wid =>
      rw [hwid] at h
      simp only [] at h
      cases hu : findUser st pid with
      | none => rw [hu] at h; cases h
      | some publisher =>
        rw [hu] at h
        cases hw : findWebsite st wid with
        | none => rw [hw] at h; cases h
        | some website =>
          rw [hw] at h
          simp only [] at h
          split_ifs at h with hact hown
          all_goals try cases h
          cases hdl : d.deadline with
            | none =>
              rw [hdl] at h
              simp only [] at h
              cases h
            | some deadline =>
              rw [hdl] at h
              simp only [] at h
              injection h with h
              subst h
              refine ⟨rfl, rfl, rfl, ?_, ?_⟩
              · intro hinv o hmem heq
                have hseq := congrArg OrderId.seq heq
                have hle := hinv o hmem
                simp only [] at hseq
                omega
              · exact ⟨pid, publisher, rfl, hu, wid, website, rfl, hw,
                  not_not.mp hact, not_not.mp hown⟩

/-- Witness for C7 at the sample store: creating an order for publisher 7
on the active website 3 succeeds, starts pending, and carries the
generated identifier with sequence number 3 (two orders already stored). -/
theorem createOrder_spec_witness :
    ((createOrder baseStore ⟨some 7, some 3, some 5000, 40⟩ 2000).toOption.map
        fun q => (q.2.status, q.2.orderId)) =
      some (.pending, ⟨2000, 3⟩) := by
  cases hE : createOrder baseStore ⟨some 7, some 3, some 5000, 40⟩ 2000 with
  | error e =>
      have hok : isOk (createOrder baseStore ⟨some 7, some 3, some 5000, 40⟩
          2000) = true := by decide
      rw [hE] at hok
      simp [isOk] at hok
  | ok q =>
      have h := createOrder_spec baseStore ⟨some 7, some 3, some 5000, 40⟩
        2000 q hE
      simp only [Except.toOption, Option.map_some', Option.some.injEq]
      rw [h.1, h.2.1]
      rfl

/-! ## Calendar lemmas for the payment-date computation -/

/-- Every month has at least 28 days. -/
theorem daysInMonth_ge (y m : Nat) : 28 ≤ daysInMonth y m := by
  unfold daysInMonth
  split_ifs <;> omega

/-- daysBeforeMonth is monotone in the month index. -/
theorem daysBeforeMonth_mono (y : Nat) {m m2 : Nat} (h : m ≤ m2) :
    daysBeforeMonth y m ≤ daysBeforeMonth y m2 := by
  induction h with
  | refl => exact le_rfl
  | step _ ih => exact le_trans ih (Nat.le_add_right _ _)

/-- The whole year is the sum of its twelve months. -/
theorem daysBeforeMonth_twelve (y : Nat) :
    daysBeforeMonth y 12 = daysInYear y := by
  cases hL : isLeapYear y <;>
    simp [daysBeforeMonth, daysInMonth, daysInYear, hL]

/-- A valid day offset inside a month stays below the year total. -/
theorem daysBeforeMonth_add_le (y : Nat) {m : Nat} (h : m ≤ 11) :
    daysBeforeMonth y m + daysInMonth y m ≤ daysInYear y := by
  have h12 : daysBeforeMonth y (m + 1) ≤ daysBeforeMonth y 12 :=
    daysBeforeMonth_mono y (by omega)
  have h2 := daysBeforeMonth_twelve y
  have h3 : daysBeforeMonth y (m + 1)
      = daysBeforeMonth y m + daysInMonth y m := rfl
  omega

/-- daysFromEpochYears is monotone. -/
theorem daysFromEpochYears_mono {k k2 : Nat} (h : k ≤ k2) :
    daysFromEpochYears k ≤ daysFromEpochYears k2 := by
  induction h with
  | refl => exact le_rfl
  | step _ ih => exact le_trans ih (Nat.le_add_right _ _)

/-- daysBeforeYear is monotone. -/
theorem daysBeforeYear_mono {y y2 : Nat} (h : y ≤ y2) :
    daysBeforeYear y ≤ daysBeforeYear y2 :=
  daysFromEpochYears_mono (Nat.sub_le_sub_right h 1970)

/-- Recurrence of daysBeforeYear above the epoch. -/
theorem daysBeforeYear_succ {y : Nat} (h : 1970 ≤ y) :
    daysBeforeYear (y + 1) = daysBeforeYear y + daysInYear y := by
  unfold daysBeforeYear
  rw [show y + 1 - 1970 = (y - 1970) + 1 from by omega]
  show daysFromEpochYears (y - 1970) + daysInYear (1970 + (y - 1970))
      = daysFromEpochYears (y - 1970) + daysInYear y
  rw [show 1970 + (y - 1970) = y from by omega]

/-- Chronological (lexicographic) order of valid dates is reflected by the
day count. -/
theorem toDays_lt (a b : CalDate) (ha : ValidDate a) (hb : ValidDate b)
    (hlt : dateLt a b) : toDays a < toDays b := by
  obtain ⟨ha1, ha2, ha3, ha4⟩ := ha
  obtain ⟨hb1, hb2, hb3, hb4⟩ := hb
  unfold toDays
  unfold dateLt at hlt
  rcases hlt with hy | ⟨hy, hm | ⟨hm, hd⟩⟩
  · have h1 := daysBeforeMonth_add_le a.year ha2
    have h2 := daysBeforeYear_succ (y := a.year) ha1
    have h3 := daysBeforeYear_mono (show a.year + 1 ≤ b.year from by omega)
    omega
  · have h0 : daysBeforeMonth a.year (a.month + 1)
        ≤ daysBeforeMonth a.year b.month :=
      daysBeforeMonth_mono a.year (by omega)
    have h1 : daysBeforeMonth a.year (a.month + 1)
        = daysBeforeMonth a.year a.month + daysInMonth a.year a.month := rfl
    rw [← hy]
    omega
  · rw [← hy, ← hm]
    omega

/-- Trichotomy for the chronological order. -/
theorem dateLt_trichotomy (a b : CalDate) :
    dateLt a b ∨ a = b ∨ dateLt b a := by
  rcases Nat.lt_trichotomy a.year b.year with h | h | h
  · exact Or.inl (Or.inl h)
  · rcases Nat.lt_trichotomy a.month b.month with h2 | h2 | h2
    · exact Or.inl (Or.inr ⟨h, Or.inl h2⟩)
    · rcases Nat.lt_trichotomy a.day b.day with h3 | h3 | h3
      · exact Or.inl (Or.inr ⟨h, Or.inr ⟨h2, h3⟩⟩)
      · refine Or.inr (Or.inl ?_)
        cases a
        cases b
        simp_all
      · exact Or.inr (Or.inr (Or.inr ⟨h.symm, Or.inr ⟨h2.symm, h3⟩⟩))
    · exact Or.inr (Or.inr (Or.inr ⟨h.symm, Or.inl h2⟩))
  · exact Or.inr (Or.inr (Or.inl h))

/-- If q is not chronologically before p, its day count is at least p's. -/
theorem toDays_le_of_not_dateLt (p q : CalDate) (hp : ValidDate p)
    (hq : ValidDate q) (h : ¬dateLt q p) : toDays p ≤ toDays q := by
  rcases dateLt_trichotomy p q with h1 | h1 | h1
  · exact le_of_lt (toDays_lt p q hp hq h1)
  · rw [h1]
  · exact absurd h1 h

/-- The upcoming 1st-or-15th is a valid date on a 1st or a 15th, strictly
after now. -/
theorem nextFirstOrFifteenth_props (now : CalDate) (hv : ValidDate now) :
    ValidDate (nextFirstOrFifteenth now) ∧
    ((nextFirstOrFifteenth now).day = 1 ∨
      (nextFirstOrFifteenth now).day = 15) ∧
    dateLt now (nextFirstOrFifteenth now) := by
  obtain ⟨h1, h2, h3, h4⟩ := hv
  unfold nextFirstOrFifteenth
  rw [if_neg (show ¬now.day < 1 from by omega)]
  by_cases hd : now.day < 15
  · rw [if_pos hd]
    have h15 := daysInMonth_ge now.year now.month
    refine ⟨⟨h1, h2, by show (1 : Nat) ≤ 15; omega,
        by show (15 : Nat) ≤ daysInMonth now.year now.month; omega⟩,
      Or.inr rfl, ?_⟩
    exact Or.inr ⟨rfl, Or.inr ⟨rfl, hd⟩⟩
  · rw [if_neg hd]
    by_cases hm : now.month = 11
    · rw [if_pos hm]
      have h28 := daysInMonth_ge (now.year + 1) 0
      refine ⟨⟨by show 1970 ≤ now.year + 1; omega,
          by show (0 : Nat) ≤ 11; omega, by show (1 : Nat) ≤ 1; omega,
          by show (1 : Nat) ≤ daysInMonth (now.year + 1) 0; omega⟩,
        Or.inl rfl, ?_⟩
      exact Or.inl (by show now.year < now.year + 1; omega)
    · rw [if_neg hm]
      have h28 := daysInMonth_ge now.year (now.month + 1)
      refine ⟨⟨h1, by show now.month + 1 ≤ 11; omega,
          by show (1 : Nat) ≤ 1; omega,
          by show (1 : Nat) ≤ daysInMonth now.year (now.month + 1); omega⟩,
        Or.inl rfl, ?_⟩
      exact Or.inr ⟨rfl, Or.inl (by show now.month < now.month + 1; omega)⟩

/-- Minimality: no valid 1st-or-15th strictly after now has a smaller day
count than the upcoming one the scheduler picks. -/
theorem nextFirstOrFifteenth_min (now q : CalDate) (hv : ValidDate now)
    (hq : ValidDate q) (hq15 : q.day = 1 ∨ q.day = 15)
    (hgt : toDays now < toDays q) :
    toDays (nextFirstOrFifteenth now) ≤ toDays q := by
  apply toDays_le_of_not_dateLt _ _ (nextFirstOrFifteenth_props now hv).1 hq
  intro hqp
  have hnq : dateLt now q := by
    rcases dateLt_trichotomy now q with h | h | h
    · exact h
    · rw [h] at hgt
      omega
    · exact absurd (toDays_lt q now hq hv h) (by omega)
  obtain ⟨h1, h2, h3, h4⟩ := hv
  obtain ⟨g1, g2, g3, g4⟩ := hq
  unfold nextFirstOrFifteenth at hqp
  rw [if_neg (show ¬now.day < 1 from by omega)] at hqp
  unfold dateLt at hnq
  by_cases hd : now.day < 15
  · rw [if_pos hd] at hqp
    unfold dateLt at hqp
    simp only [] at hqp
    rcases hq15 with hq1 | hq15 <;> omega
  · rw [if_neg hd] at hqp
    by_cases hm : now.month = 11
    · rw [if_pos hm] at hqp
      unfold dateLt at hqp
      simp only [] at hqp
      rcases hq15 with hq1 | hq15 <;> omega
    · rw [if_neg hm] at hqp
      unfold dateLt at hqp
      simp only [] at hqp
      rcases hq15 with hq1 | hq15 <;> omega

/-- Shifting the day field adds exactly that many days to the count. -/
theorem toDays_day_add (d : CalDate) (k : Nat) (h : 1 ≤ d.day) :
    toDays { d with day := d.day + k } = toDays d + k := by
  unfold toDays
  simp only []
  omega

/-- C9: for every valid input date, getNextPaymentDate returns a date that
is neither a Saturday (weekday 6) nor a Sunday (weekday 0), whose day count
is at least the input's, and which is exactly the chronologically first
valid 1st-or-15th strictly after the input, adjusted by +2 days on a
Saturday and +1 day on a Sunday. -/
theorem getNextPaymentDate_spec (now : CalDate) (hv : ValidDate now) :
    dayOfWeek (getNextPaymentDate now) ≠ 0 ∧
    dayOfWeek (getNextPaymentDate now) ≠ 6 ∧
    toDays now ≤ toDays (getNextPaymentDate now) ∧
    ((nextFirstOrFifteenth now).day = 1 ∨
      (nextFirstOrFifteenth now).day = 15) ∧
    ValidDate (nextFirstOrFifteenth now) ∧
    toDays now < toDays (nextFirstOrFifteenth now) ∧
    (∀ q, ValidDate q → (q.day = 1 ∨ q.day = 15) →
      toDays now < toDays q →
      toDays (nextFirstOrFifteenth now) ≤ toDays q) ∧
    getNextPaymentDate now = adjustWeekend (nextFirstOrFifteenth now) := by
  obtain ⟨hpv, hp15, hplt⟩ := nextFirstOrFifteenth_props now hv
  have hptd : toDays now < toDays (nextFirstOrFifteenth now) :=
    toDays_lt _ _ hv hpv hplt
  have hday1 : 1 ≤ (nextFirstOrFifteenth now).day := by
    rcases hp15 with h | h <;> omega
  have hmin : ∀ q, ValidDate q → (q.day = 1 ∨ q.day = 15) →
      toDays now < toDays q →
      toDays (nextFirstOrFifteenth now) ≤ toDays q :=
    fun q hq hq15 hgt => nextFirstOrFifteenth_min now q hv hq hq15 hgt
  unfold getNextPaymentDate adjustWeekend
  unfold dayOfWeek
  by_cases h0 : (toDays (nextFirstOrFifteenth now) + 4) % 7 = 0
  · rw [if_pos h0]
    rw [toDays_day_add _ 1 hday1]
    refine ⟨by omega, by omega, by omega, hp15, hpv, hptd, hmin, rfl⟩
  · rw [if_neg h0]
    by_cases h6 : (toDays (nextFirstOrFifteenth now) + 4) % 7 = 6
    · rw [if_pos h6]
      rw [toDays_day_add _ 2 hday1]
      refine ⟨by omega, by omega, by omega, hp15, hpv, hptd, hmin, rfl⟩
    · rw [if_neg h6]
      refine ⟨h0, h6, by omega, hp15, hpv, hptd, hmin, rfl⟩

/-- Witness for C9 at 2026-10-11 (a Sunday): the computed payment date is
on a weekday and not before the input. -/
theorem getNextPaymentDate_spec_witness :
    dayOfWeek (getNextPaymentDate d0) ≠ 0 ∧
    dayOfWeek (getNextPaymentDate d0) ≠ 6 ∧
    toDays d0 ≤ toDays (getNextPaymentDate d0) := by
  have h := getNextPaymentDate_spec d0 (by decide)
  exact ⟨h.1, h.2.1, h.2.2.1⟩

end PublisherAuthority
